import Mathlib

/-!
Verification of the STUOAReader incremental ingestion and retrieval pipeline.

This file gives a shallow embedding, in Lean 4, of the parts of the
repository that the verified properties talk about:

* `crawler/models.py` — the data records passed between stages;
* `crawler/pipeline.py` — the crawler run: schedule gate, deduplication,
  detail fetching, summary filling with bounded retry, embedding text
  composition, embedding generation;
* `crawler/db.py` — conflict-tolerant article insertion keyed by link;
* `crawler/summarizer.py` — the AI-summary call, in particular its
  "not configured" branch;
* `crawler/embeddings.py` — the batched embedding call;
* `crawler/cache.py` and `backend/utils/redis_cache.py` together with
  `backend/routes/articles.py` — the today-cache writer and the cached
  read path with its ETag handling;
* `backend/routes/ai.py` — the vector search with recency re-ranking.

External effects (HTTP fetches, the AI endpoints, Redis, the clock) are
modelled as oracle inputs; Python `str` values are modelled as `String`
(or `List Char` where character-level truncation matters); the relational
store is modelled as an explicit table value threaded through the
functions that use it.
-/

namespace Crawler

/-- `crawler/models.py` `ArticleMeta`: one row of the listing page. -/
structure ArticleMeta where
  title : String
  unit : String
  link : String
  published_on : String
deriving DecidableEq, Repr

/-- `crawler/models.py` `DetailResult`: content and attachments of one
detail page.  An attachment is a (name, URL) pair. -/
structure DetailResult where
  content : String
  attachments : List (String × String)
deriving DecidableEq, Repr

/-- `crawler/models.py` `ArticleRecord`: the full record handed to
`insert_articles`. -/
structure ArticleRecord where
  title : String
  unit : String
  link : String
  published_on : String
  content : String
  summary : String
  attachments : List (String × String)
deriving DecidableEq, Repr

/-- One stored row of the `articles` table of `crawler/db.py`
(`id BIGSERIAL PRIMARY KEY`, then the record columns). -/
structure ArticleRow where
  id : Nat
  record : ArticleRecord
deriving DecidableEq, Repr

/-- The `articles` table: its rows in insertion order together with the
next value of the `BIGSERIAL` id sequence. -/
structure DB where
  rows : List ArticleRow
  nextId : Nat
deriving DecidableEq, Repr

/-- All links currently stored, across all dates (the column carrying the
`UNIQUE` constraint of `crawler/db.py` `init_db`). -/
def linksOf (db : DB) : List String :=
  db.rows.map (fun r => r.record.link)

/-- `crawler/db.py` `fetch_existing_links` (lines 91-105):
`SELECT link FROM articles WHERE published_on = %s`. -/
def fetch_existing_links (db : DB) (target_date : String) : List String :=
  (db.rows.filter (fun r => r.record.published_on = target_date)).map
    (fun r => r.record.link)

/-- One `INSERT ... ON CONFLICT (link) DO NOTHING` of
`crawler/db.py` `insert_articles`: the row is appended with a fresh id
unless its link is already stored, and `cur.rowcount` (1 or 0) is
returned alongside the updated table. -/
def insertOne (db : DB) (record : ArticleRecord) : DB × Nat :=
  if record.link ∈ linksOf db then (db, 0)
  else ({ rows := db.rows ++ [⟨db.nextId, record⟩], nextId := db.nextId + 1 }, 1)

/-- `crawler/db.py` `insert_articles` (lines 108-142): the records are
inserted one by one, each conflict on `link` being silently ignored, and
the accumulated rowcount is returned. -/
def insert_articles : DB → List ArticleRecord → DB × Nat
  | db, [] => (db, 0)
  | db, record :: recs =>
    let first := insertOne db record
    let rest := insert_articles first.1 recs
    (rest.1, first.2 + rest.2)

/-- `crawler/pipeline.py` line 141:
`new_items = [item for item in candidates if item.link not in existing_links]`. -/
def new_items (candidates : List ArticleMeta) (existing_links : List String) :
    List ArticleMeta :=
  candidates.filter (fun item => decide (item.link ∉ existing_links))

/-- `crawler/pipeline.py` `_within_hours` (lines 68-80).  The method
compares the formatted target date against `now.strftime("%Y-%m-%d")`:
any date string other than today's is allowed outright, and today's date
is allowed exactly when `7 <= now.hour < 24`.  The two formatted dates
and the local hour are the inputs of the pure function. -/
def withinHours (targetDate nowDate : String) (nowHour : Nat) : Bool :=
  if targetDate ≠ nowDate then true
  else decide (7 ≤ nowHour ∧ nowHour < 24)

/-- Lexicographic strict order on character lists. -/
def lexBefore : List Char → List Char → Bool
  | [], [] => false
  | [], _ :: _ => true
  | _ :: _, [] => false
  | a :: as, b :: bs =>
    if a < b then true else if a = b then lexBefore as bs else false

/-- Modelled from the spec: "if `targetDate` is strictly before `now`'s
calendar date" — for the zero-padded `YYYY-MM-DD` strings the pipeline
formats, lexicographic string order coincides with calendar order. -/
def dateBefore (a b : String) : Prop := lexBefore a.data b.data = true

instance (a b : String) : Decidable (dateBefore a b) :=
  inferInstanceAs (Decidable (lexBefore a.data b.data = true))

/-- A row returned by `crawler/db.py` `fetch_article_ids`
(`SELECT id, link, title, summary, content, published_on ...`), as the
dictionary consumed by `Crawler._compose_embed_text`.  Python `str`
values are modelled as `List Char` because the stage truncates by
character count; a field is `none` when `dict.get` yields `None`. -/
structure EmbArticle where
  id : Nat
  link : String
  title : Option (List Char)
  summary : Option (List Char)
  content : Option (List Char)
  published_on : String
deriving DecidableEq, Repr

/-- `crawler/pipeline.py` `_compose_embed_text` (lines 278-291):
`"\n".join([title, summary, body])` with each missing field replaced by
the empty string (`article.get(...) or ""`), then `combined[:2000]`. -/
def compose_embed_text (a : EmbArticle) : List Char :=
  let body := a.content.getD []
  let summary := a.summary.getD []
  let title := a.title.getD []
  (title ++ '\n' :: (summary ++ '\n' :: body)).take 2000

/-- The untruncated newline-joined concatenation the claim refers to. -/
def embedConcat (a : EmbArticle) : List Char :=
  a.title.getD [] ++ '\n' :: (a.summary.getD [] ++ '\n' :: a.content.getD [])

/-- The embedding-related configuration of `config/config.py`: each field
is `none` when unset; Python truthiness (`if not (cfg.embed_base_url and
cfg.embed_model and cfg.embed_api_key)`) also treats empty strings as
missing. -/
structure EmbedConfig where
  embed_base_url : Option String
  embed_model : Option String
  embed_api_key : Option String
deriving DecidableEq, Repr

/-- Python truthiness of an optional string. -/
def truthy : Option String → Bool
  | some t => decide (t ≠ "")
  | none => false

/-- `if not (cfg.embed_base_url and cfg.embed_model and cfg.embed_api_key)`
of `crawler/embeddings.py` line 46. -/
def embedConfigComplete (cfg : EmbedConfig) : Bool :=
  truthy cfg.embed_base_url && truthy cfg.embed_model && truthy cfg.embed_api_key

/-- Outcome of the single `requests.post` of `Embedder.embed_batch`:
either a raised `RequestException`, or a response with a status code and
the parsed `data` array, each entry's `embedding` field being `some`
vector exactly when it is a JSON list (`isinstance(emb, list)`).  Vector
components are modelled as rationals. -/
inductive EmbedHttp where
  | failure : EmbedHttp
  | response : Nat → List (Option (List ℚ)) → EmbedHttp
deriving DecidableEq

/-- `crawler/embeddings.py` `Embedder.embed_batch` (lines 32-87): `None`
when the configuration is incomplete, the request raises, the status is
not 200, or the number of extracted vectors differs from the number of
input texts; otherwise the extracted vectors. -/
def embed_batch (cfg : EmbedConfig) (resp : EmbedHttp) (texts : List (List Char)) :
    Option (List (List ℚ)) :=
  if embedConfigComplete cfg = false then none
  else
    match resp with
    | .failure => none
    | .response status entries =>
      if status ≠ 200 then none
      else
        let embeddings := entries.filterMap id
        if embeddings.length ≠ texts.length then none
        else some embeddings

/-- One row handed to `crawler/db.py` `insert_embeddings`.  The
`f"{x:.6f}"` float rendering of the vector into a pgvector literal is
not modelled; the payload carries the vector itself. -/
structure VecPayload where
  article_id : Nat
  embedding : List ℚ
  published_on : String
deriving DecidableEq

/-- `crawler/pipeline.py` `_generate_embeddings` (lines 305-334): when
the embedding call yields nothing (`if not embeddings: return`, covering
both `None` and an empty list), no payload is built and nothing is
inserted; otherwise articles and vectors are zipped positionally into
the rows given to `insert_embeddings`.  The returned list is exactly the
set of vector rows written. -/
def generate_embeddings (articles : List EmbArticle)
    (embeddings : Option (List (List ℚ))) : List VecPayload :=
  match embeddings with
  | none => []
  | some [] => []
  | some embs =>
    (articles.zip embs).map
      (fun p => ⟨p.1.id, p.2, p.1.published_on⟩)

/-- One entry of the `detailed` list built in `Crawler.run` (lines
150-167): the candidate's metadata together with the fetched detail; the
`"摘要"` key is absent (`none`) until `_fill_summaries` sets it. -/
structure DetailedItem where
  title : String
  unit : String
  link : String
  published_on : String
  content : String
  attachments : List (String × String)
  summary : Option String
deriving DecidableEq, Repr

/-- The sentinel written for items whose summarization never succeeded
(`crawler/pipeline.py` line 275). -/
def failedSummarySentinel : String := "[AI摘要失败]"

/-- The placeholder `Summarizer.summarize` returns when no Authorization
header is configured (`crawler/summarizer.py` line 45). -/
def unconfiguredSummary : String := "[AI 未配置]"

/-- The AI-chat configuration of `config/config.py` relevant to
`Summarizer.summarize`: `ai_headers` contains an `Authorization` entry
exactly when `api_key` is truthy (non-`None` and non-empty). -/
structure AIConfig where
  api_key : Option String
deriving DecidableEq, Repr

/-- `"Authorization" in headers` for `headers = dict(config.ai_headers)`
(`config/config.py` lines 101-111). -/
def hasAuthHeader (cfg : AIConfig) : Bool := truthy cfg.api_key

/-- `crawler/summarizer.py` `Summarizer.summarize` (lines 32-111): with
no Authorization header the call is skipped and the placeholder string
is returned; otherwise the outcome of the network call, response
parsing and text cleanup is the oracle `api` (`none` for any failure). -/
def summarize (cfg : AIConfig) (api : Option String) : Option String :=
  if hasAuthHeader cfg = false then some unconfiguredSummary
  else api

/-- The per-item summarizer the pipeline runs: pass number and item
content determine the oracle outcome of one `summarize` call. -/
def pipeSummarizer (cfg : AIConfig) (api : Nat → String → Option String) :
    Nat → String → Option String :=
  fun attempt content => summarize cfg (api attempt content)

/-- One pass of the retry loop of `_fill_summaries` (lines 253-259): for
each index still pending, one `summarize` call; a truthy result is
stored into the summary slot of that item, a falsy one (`None` or the
empty string) appends the index to the failure list. -/
def onePass (s : Nat → String → Option String) (attempt : Nat)
    (contents : List String) (summaries : List (Option String))
    (remaining : List Nat) : List (Option String) × List Nat :=
  remaining.foldl
    (fun acc i =>
      match s attempt (contents.getD i "") with
      | some t => if t = "" then (acc.1, acc.2 ++ [i]) else (acc.1.set i (some t), acc.2)
      | none => (acc.1, acc.2 ++ [i]))
    (summaries, [])

/-- The `while remaining and attempt <= max_retries` loop of
`_fill_summaries` (lines 247-271) with `max_retries = 3`, returning the
summary slots, the final value of `remaining` (note that both `break`
statements leave `remaining` at the value the pass started from), and
the number of full passes executed. -/
def fillLoop (s : Nat → String → Option String) (contents : List String)
    (summaries : List (Option String)) (remaining : List Nat) (attempt : Nat) :
    List (Option String) × List Nat × Nat :=
  if h : remaining = [] ∨ 3 < attempt then (summaries, remaining, 0)
  else
    let step := onePass s attempt contents summaries remaining
    if step.2 = [] then (step.1, remaining, 1)
    else if 3 < attempt + 1 then (step.1, remaining, 1)
    else
      let rest := fillLoop s contents step.1 step.2 (attempt + 1)
      (rest.1, rest.2.1, rest.2.2 + 1)
termination_by 4 - attempt
decreasing_by
  push_neg at h
  omega

/-- The final sentinel loop of `_fill_summaries` (lines 274-275):
`item["摘要"] = item.get("摘要") or "[AI摘要失败]"` over the items still
listed in `remaining` — a truthy summary (set during the pass the break
interrupted) is kept, anything else becomes the sentinel. -/
def applySentinel (summaries : List (Option String)) (remaining : List Nat) :
    List (Option String) :=
  remaining.foldl
    (fun acc i =>
      if truthy (acc.getD i none) = true then acc
      else acc.set i (some failedSummarySentinel))
    summaries

/-- `crawler/pipeline.py` `_fill_summaries` (lines 241-275) over a batch
of detailed items: returns the items with their final summaries (in the
original order) and the number of full passes the retry loop executed. -/
def fill_summaries (s : Nat → String → Option String)
    (items : List DetailedItem) : List DetailedItem × Nat :=
  let contents := items.map (fun it => it.content)
  let init := items.map (fun it => it.summary)
  let r := fillLoop s contents init (List.range items.length) 0
  let final := applySentinel r.1 r.2.1
  (List.zipWith (fun it o => { it with summary := o }) items final, r.2.2)

/-- The `ArticleRecord` built from one filled item in `Crawler.run`
(lines 185-196); by this point `_fill_summaries` guarantees the summary
key exists. -/
def toRecord (it : DetailedItem) : ArticleRecord :=
  ⟨it.title, it.unit, it.link, it.published_on, it.content,
   it.summary.getD "", it.attachments⟩

/-- The `EmbArticle` view of a stored row, as produced by
`fetch_article_ids` (`SELECT id, link, title, summary, content,
published_on`). -/
def rowToEmbArticle (r : ArticleRow) : EmbArticle :=
  ⟨r.id, r.record.link, some r.record.title.data, some r.record.summary.data,
   some r.record.content.data, r.record.published_on⟩

/-- `crawler/db.py` `fetch_article_ids` (lines 145-163):
`SELECT ... FROM articles WHERE link = ANY(%s)`, in table order. -/
def fetch_article_ids (db : DB) (links : List String) : List EmbArticle :=
  (db.rows.filter (fun r => decide (r.record.link ∈ links))).map rowToEmbArticle

/-- The environment of one `Crawler.run` invocation: the clock (target
and current formatted dates, current hour), the store (`none` when
`get_connection` raises), and oracles for the listing fetch, the detail
fetches, the per-call summarize outcome, and the embedding endpoint. -/
structure RunEnv where
  targetDate : String
  nowDate : String
  nowHour : Nat
  db : Option DB
  listing : List ArticleMeta
  detailOf : String → DetailResult
  aiConfig : AIConfig
  summarizeApi : Nat → String → Option String
  embedConfig : EmbedConfig
  embedApi : EmbedHttp

/-- The observable effects of one `Crawler.run` invocation. -/
structure RunEffects where
  listFetched : Bool
  detailFetched : List String
  summarizedContents : List String
  dbFinal : Option DB
  insertedCount : Option Nat
  cacheRefreshed : Bool
  vectorPayloads : List VecPayload
deriving DecidableEq

/-- The item built at `crawler/pipeline.py` lines 158-167 for one
candidate whose detail page produced content. -/
def mkDetailedItem (m : ArticleMeta) (d : DetailResult) : DetailedItem :=
  ⟨m.title, m.unit, m.link, m.published_on, d.content, d.attachments, none⟩

/-- `crawler/pipeline.py` `Crawler.run` (lines 82-238).  The schedule
gate is checked first; the store connection is attempted, a failure
switching off every database step while fetching and enrichment
continue with an empty existing-link set; the listing is fetched and
filtered, details fetched per item (items without content are skipped),
summaries filled, and — only when the store is available — records are
inserted, the cache refreshed when something was inserted, and vectors
generated for the batch.  The cache-refresh step calls
`self.repo.fetch_for_cache` / `refresh_article_cache`, which are absent
from the checked-in revision; that seam is `Modelled from the spec:`
"writes/overwrites cache regions after a successfully persisted batch",
recorded here only as the boolean `cacheRefreshed`. -/
def run (env : RunEnv) : RunEffects :=
  if withinHours env.targetDate env.nowDate env.nowHour = false then
    ⟨false, [], [], env.db, none, false, []⟩
  else
    let existing : List String :=
      match env.db with
      | some db => fetch_existing_links db env.targetDate
      | none => []
    let candidates := env.listing
    if candidates = [] then ⟨true, [], [], env.db, none, false, []⟩
    else
      let newItems := new_items candidates existing
      if newItems = [] then ⟨true, [], [], env.db, none, false, []⟩
      else
        let detailed := newItems.filterMap (fun m =>
          if (env.detailOf m.link).content = "" then none
          else some (mkDetailedItem m (env.detailOf m.link)))
        if detailed = [] then
          ⟨true, newItems.map (fun m => m.link), [], env.db, none, false, []⟩
        else
          let filled := (fill_summaries
            (pipeSummarizer env.aiConfig env.summarizeApi) detailed).1
          match env.db with
          | none =>
            ⟨true, newItems.map (fun m => m.link),
             detailed.map (fun it => it.content), none, none, false, []⟩
          | some db =>
            let records := filled.map toRecord
            let ins := insert_articles db records
            let links := detailed.map (fun it => it.link)
            let articles := fetch_article_ids ins.1 links
            let texts := articles.map compose_embed_text
            let payloads := generate_embeddings articles
              (embed_batch env.embedConfig env.embedApi texts)
            ⟨true, newItems.map (fun m => m.link),
             detailed.map (fun it => it.content), some ins.1, some ins.2,
             decide (0 < ins.2), payloads⟩

end Crawler

namespace Backend

/-- A row of the list the Cache Refresher serializes — the dictionaries
`crawler/cache.py` receives from the article table (all fields the
listing queries select; timestamps and attachments rendered as the
strings their ISO/JSON serialization produces). -/
structure CachedArticleRow where
  id : Nat
  title : String
  unit : String
  link : String
  published_on : String
  summary : String
  content : String
  attachments : String
  created_at : String
  updated_at : String
deriving DecidableEq, Repr

/-- The same row with the `content` key dropped, as built at
`crawler/cache.py` line 79. -/
structure StrippedArticleRow where
  id : Nat
  title : String
  unit : String
  link : String
  published_on : String
  summary : String
  attachments : String
  created_at : String
  updated_at : String
deriving DecidableEq, Repr

/-- `{k: v for k, v in item.items() if k != "content"}`. -/
def stripContent (r : CachedArticleRow) : StrippedArticleRow :=
  ⟨r.id, r.title, r.unit, r.link, r.published_on, r.summary, r.attachments,
   r.created_at, r.updated_at⟩

/-- The value `crawler/cache.py` `refresh_today_cache` (lines 41-96)
stores under `articles:today`: the content-stripped article list,
`next_before_id` (the id of the last serialized row, if any) and
`has_more` (always `false`; the crawler cannot tell).  The entry holds
nothing else — in particular no digest of the payload. -/
structure TodayPayload where
  articles : List StrippedArticleRow
  next_before_id : Option Nat
  has_more : Bool
deriving DecidableEq, Repr

/-- `crawler/cache.py` `refresh_today_cache`: the key and payload the
refresher writes (via `client.setex` with TTL 86400). -/
def refresh_today_cache (arts : List CachedArticleRow) :
    String × TodayPayload :=
  ("articles:today",
   ⟨arts.map stripContent, (arts.getLast?).map (fun r => r.id), false⟩)

/-- The value `backend/routes/articles.py` `get_articles` caches under
`articles:list:{date}:{since}` (line 167: `{"articles": articles}`). -/
structure ListPayload where
  articles : List StrippedArticleRow
deriving DecidableEq, Repr

/-- Modelled: `json.dumps(value, sort_keys=True, ensure_ascii=False)` of
`RedisCache.generate_etag` — a deterministic rendering of one row with
alphabetically ordered keys; the concrete JSON punctuation is immaterial
to the control flow, which only compares digests for equality. -/
def dumpsRow (r : StrippedArticleRow) : String :=
  "attachments=" ++ r.attachments
    ++ ";created_at=" ++ r.created_at
    ++ ";id=" ++ toString r.id
    ++ ";link=" ++ r.link
    ++ ";published_on=" ++ r.published_on
    ++ ";summary=" ++ r.summary
    ++ ";title=" ++ r.title
    ++ ";unit=" ++ r.unit
    ++ ";updated_at=" ++ r.updated_at

/-- Modelled: `json.dumps` of the whole cached object, sorted keys. -/
def dumpsListPayload (p : ListPayload) : String :=
  "articles=[" ++ String.intercalate ", " (p.articles.map dumpsRow) ++ "]"

/-- Modelled: `hashlib.md5(content.encode()).hexdigest()` — an opaque
digest of the serialized text; no control flow ever inspects its
structure, only compares it for equality. -/
def md5Model (s : String) : String := "md5:" ++ s

/-- `backend/utils/redis_cache.py` `RedisCache.generate_etag`
(lines 148-174): the digest of the sorted-keys JSON serialization of
the payload, computed from the payload value each time it is called. -/
def generate_etag (p : ListPayload) : String := md5Model (dumpsListPayload p)

/-- Result of one cached read of `get_articles`: HTTP status, the ETag
header sent (none on 304), and how many times the payload was
serialized-and-hashed while answering. -/
structure CachedReadResult where
  status : Nat
  etagHeader : Option String
  hashOps : Nat
deriving DecidableEq, Repr

/-- `backend/routes/articles.py` `get_articles` (lines 118-140), the
cache-hit branch: the ETag is recomputed from the cached payload before
any check (line 124), then compared against `If-None-Match`; a match —
or a fresh `If-Modified-Since` (modelled by the boolean `imsFresh`) —
yields 304, otherwise the payload is served with the ETag header. -/
def get_articles_cached (p : ListPayload) (ifNoneMatch : Option String)
    (imsFresh : Bool) : CachedReadResult :=
  let etag := generate_etag p
  if ifNoneMatch = some etag then ⟨304, none, 1⟩
  else if imsFresh then ⟨304, none, 1⟩
  else ⟨200, some etag, 1⟩

/-- The configuration object of `backend/config.py` `Config` used by
`backend/routes/ai.py` (module-level `config = Config()`): exactly the
attributes `__init__` (lines 12-44) declares for the AI/embedding side.
`ai_recency_weight` and `ai_recency_half_life_days` are *not* among
them. -/
structure BackendConfig where
  database_url : Option String
  embed_base_url : Option String
  embed_model : Option String
  embed_api_key : Option String
  embed_dim : Nat
  ai_base_url : Option String
  ai_model : Option String
  api_key : Option String
  ai_vector_limit_days : Option Int
  ai_vector_limit_count : Option Int

/-- The attribute lookup `config.ai_recency_weight` of
`backend/routes/ai.py` line 136.  `backend/config.py` defines no
`ai_recency_weight` attribute (neither in `Config.__init__` nor via
`_apply_setting`), so on the shipped configuration object this lookup
always raises `AttributeError`; it is modelled as a lookup that always
fails. -/
def aiRecencyWeightAttr (_ : BackendConfig) : Option ℝ := none

/-- The attribute lookup `config.ai_recency_half_life_days` of
`backend/routes/ai.py` line 137; like `ai_recency_weight`, the
attribute does not exist on `backend/config.py` `Config`. -/
def aiRecencyHalfLifeAttr (_ : BackendConfig) : Option ℝ := none

/-- One joined row of the ranking query of `search_similar_articles`:
article fields, `similarity` (the cosine distance
`v.embedding <=> query`), and `ageDays` (`CURRENT_DATE - published_on`,
which is negative for future-dated rows). -/
structure VectorJoinRow where
  id : Nat
  title : String
  unit : String
  summary : String
  content : String
  ageDays : Int
  similarity : ℝ

/-- Ascending cosine distance, the `ORDER BY v.embedding <=> %s::vector`
of the candidate CTE. -/
def leDist (a b : VectorJoinRow) : Prop := a.similarity ≤ b.similarity

noncomputable instance : DecidableRel leDist :=
  fun a b => Real.decidableLE a.similarity b.similarity

instance : IsTotal VectorJoinRow leDist :=
  ⟨fun a b => le_total a.similarity b.similarity⟩

instance : IsTrans VectorJoinRow leDist :=
  ⟨fun _ _ _ hab hbc => le_trans hab hbc⟩

/-- Ascending score, the outer `ORDER BY score ASC`. -/
def leScore (a b : VectorJoinRow × ℝ) : Prop := a.2 ≤ b.2

noncomputable instance : DecidableRel leScore :=
  fun a b => Real.decidableLE a.2 b.2

/-- `candidate_limit = min(max(top_k * 5, top_k), 50)` of
`backend/routes/ai.py` line 138. -/
def candidateLimit (top_k : Nat) : Nat := min (max (top_k * 5) top_k) 50

/-- `score = similarity - w * exp(-GREATEST(CURRENT_DATE - published_on,
0)::float / h)` of the ranking SQL (line 150). -/
noncomputable def score (w h : ℝ) (r : VectorJoinRow) : ℝ :=
  r.similarity - w * Real.exp (-((max r.ageDays 0 : Int) : ℝ) / h)

/-- The ranking SQL of `search_similar_articles` (lines 140-154): take
the `candidateLimit` nearest rows by ascending distance, score each,
re-sort ascending by score, return the first `top_k` (`ORDER BY` is
modelled as a stable sort). -/
noncomputable def searchSQL (rows : List VectorJoinRow) (top_k : Nat)
    (w h : ℝ) : List (VectorJoinRow × ℝ) :=
  let candidate := (List.insertionSort leDist rows).take (candidateLimit top_k)
  let scored := candidate.map (fun r => (r, score w h r))
  (List.insertionSort leScore scored).take top_k

/-- `backend/routes/ai.py` `search_similar_articles` (lines 119-181) as
shipped: `recency_weight = max(config.ai_recency_weight, 0.0)` and
`half_life_days = max(config.ai_recency_half_life_days, 1.0)` are read
before the query; if either attribute lookup fails the surrounding
`except Exception` handler returns `[]`. -/
noncomputable def search_similar_articles (cfg : BackendConfig)
    (rows : List VectorJoinRow) (top_k : Nat) : List (VectorJoinRow × ℝ) :=
  match aiRecencyWeightAttr cfg, aiRecencyHalfLifeAttr cfg with
  | some w, some h => searchSQL rows top_k (max w 0) (max h 1)
  | _, _ => []

end Backend

namespace Crawler

theorem linksOf_insertOne_mono {db : DB} {record : ArticleRecord} {l : String}
    (h : l ∈ linksOf db) : l ∈ linksOf (insertOne db record).1 := by
  unfold insertOne
  by_cases hmem : record.link ∈ linksOf db
  · simpa [hmem] using h
  · simp only [hmem, if_false]
    simp [linksOf] at h ⊢
    exact Or.inl h

theorem insertOne_link_mem (db : DB) (record : ArticleRecord) :
    record.link ∈ linksOf (insertOne db record).1 := by
  unfold insertOne
  by_cases hmem : record.link ∈ linksOf db
  · simp only [if_pos hmem]
    exact hmem
  · rw [if_neg hmem]
    simp [linksOf]

theorem insertOne_of_mem {db : DB} {record : ArticleRecord}
    (h : record.link ∈ linksOf db) : insertOne db record = (db, 0) := by
  simp [insertOne, h]

theorem linksOf_insert_articles_mono {l : String} :
    ∀ (recs : List ArticleRecord) (db : DB), l ∈ linksOf db →
      l ∈ linksOf (insert_articles db recs).1
  | [], db, h => h
  | record :: recs, db, h => by
    simpa [insert_articles] using
      linksOf_insert_articles_mono recs (insertOne db record).1
        (linksOf_insertOne_mono h)

theorem insert_articles_links_final :
    ∀ (recs : List ArticleRecord) (db : DB) (r : ArticleRecord), r ∈ recs →
      r.link ∈ linksOf (insert_articles db recs).1
  | record :: recs, db, r, h => by
    rcases List.mem_cons.mp h with h1 | h1
    · rw [h1]
      simpa [insert_articles] using
        linksOf_insert_articles_mono recs (insertOne db record).1
          (insertOne_link_mem db record)
    · simpa [insert_articles] using
        insert_articles_links_final recs (insertOne db record).1 r h1

theorem insert_articles_noop :
    ∀ (recs : List ArticleRecord) (db : DB),
      (∀ r ∈ recs, r.link ∈ linksOf db) → insert_articles db recs = (db, 0)
  | [], _, _ => rfl
  | record :: recs, db, h => by
    have hrec : insertOne db record = (db, 0) :=
      insertOne_of_mem (h record (List.mem_cons_self record recs))
    have hrest : insert_articles db recs = (db, 0) :=
      insert_articles_noop recs db (fun r hr => h r (List.mem_cons_of_mem record hr))
    simp [insert_articles, hrec, hrest]

/-- C2.  Idempotent insertion: a batch whose links are all already stored
inserts nothing — the table is unchanged and the inserted count is 0 —
and re-inserting any batch immediately after inserting it likewise
inserts nothing, the `ON CONFLICT (link) DO NOTHING` clause (the link
uniqueness constraint) being the mechanism.  Hence a second pipeline run
over the same upstream data inserts each item at most once. -/
theorem insert_articles_idempotent :
    (∀ (db : DB) (recs : List ArticleRecord),
      (∀ r ∈ recs, r.link ∈ linksOf db) → insert_articles db recs = (db, 0))
    ∧ (∀ (db : DB) (recs : List ArticleRecord),
      insert_articles (insert_articles db recs).1 recs
        = ((insert_articles db recs).1, 0)) := by
  refine ⟨fun db recs h => insert_articles_noop recs db h, fun db recs => ?_⟩
  exact insert_articles_noop recs (insert_articles db recs).1
    (fun r hr => insert_articles_links_final recs db r hr)

/-- C2 witness: a concrete one-record store into which the same record is
re-inserted; nothing is inserted and the store is unchanged. -/
theorem insert_articles_idempotent_witness :
    insert_articles
        ⟨[⟨1, ⟨"t", "u", "http://a/1", "2025-10-12", "c", "s", []⟩⟩], 2⟩
        [⟨"t", "u", "http://a/1", "2025-10-12", "c", "s", []⟩]
      = (⟨[⟨1, ⟨"t", "u", "http://a/1", "2025-10-12", "c", "s", []⟩⟩], 2⟩, 0) :=
  insert_articles_idempotent.1
    ⟨[⟨1, ⟨"t", "u", "http://a/1", "2025-10-12", "c", "s", []⟩⟩], 2⟩
    [⟨"t", "u", "http://a/1", "2025-10-12", "c", "s", []⟩]
    (by decide)

/-- C1 counterexample.  The claim asserts that for every candidate list
the computed new-item list contains no duplicate links; but the line-141
list comprehension keeps every candidate whose link is unknown, so a
listing that repeats a link (here `"http://a/dup"` twice, with an empty
existing-link set) yields a new-item list with a duplicated link. -/
theorem new_items_duplicate_counterexample :
    ¬ ((new_items
          [⟨"t1", "u1", "http://a/dup", "2025-10-12"⟩,
           ⟨"t2", "u2", "http://a/dup", "2025-10-12"⟩] []).map
        (fun item => item.link)).Nodup := by
  decide

/-- C1 (amended).  `new_items` is exactly the candidate list filtered by
`link not in existing_links` under exact string comparison — an order-
preserving sublist of the candidates whose members are precisely the
candidates with unknown links — and it is free of duplicate links
whenever the candidate list itself carries pairwise-distinct links
(duplicates in the listing are passed through unchanged). -/
theorem new_items_characterization :
    (∀ (candidates : List ArticleMeta) (existing_links : List String)
      (m : ArticleMeta),
        m ∈ new_items candidates existing_links
          ↔ m ∈ candidates ∧ m.link ∉ existing_links)
    ∧ (∀ (candidates : List ArticleMeta) (existing_links : List String),
        (new_items candidates existing_links).Sublist candidates)
    ∧ (∀ (candidates : List ArticleMeta) (existing_links : List String),
        ((candidates.map (fun item => item.link)).Nodup →
          ((new_items candidates existing_links).map
            (fun item => item.link)).Nodup)) := by
  refine ⟨fun candidates existing_links m => ?_, fun candidates existing_links => ?_,
    fun candidates existing_links h => ?_⟩
  · simp [new_items, List.mem_filter]
  · exact List.filter_sublist candidates
  · exact h.sublist (List.Sublist.map _ (List.filter_sublist candidates))

/-- C1 witness: a two-candidate listing with distinct links, one of them
already stored; the single genuinely new candidate survives the filter
and the result has no duplicate links. -/
theorem new_items_characterization_witness :
    (⟨"t2", "u2", "http://a/2", "2025-10-12"⟩
        ∈ new_items
            [⟨"t1", "u1", "http://a/1", "2025-10-12"⟩,
             ⟨"t2", "u2", "http://a/2", "2025-10-12"⟩] ["http://a/1"]
      ↔ (⟨"t2", "u2", "http://a/2", "2025-10-12"⟩ : ArticleMeta)
            ∈ [⟨"t1", "u1", "http://a/1", "2025-10-12"⟩,
               ⟨"t2", "u2", "http://a/2", "2025-10-12"⟩]
          ∧ "http://a/2" ∉ ["http://a/1"])
    ∧ ((new_items
          [⟨"t1", "u1", "http://a/1", "2025-10-12"⟩,
           ⟨"t2", "u2", "http://a/2", "2025-10-12"⟩] ["http://a/1"]).map
        (fun item => item.link)).Nodup :=
  ⟨new_items_characterization.1 _ _ _,
   new_items_characterization.2.2 _ _ (by decide)⟩

theorem lexBefore_irrefl : ∀ l : List Char, lexBefore l l = false
  | [] => rfl
  | a :: as => by simp [lexBefore, lexBefore_irrefl as]

theorem dateBefore_ne {a b : String} (h : dateBefore a b) : a ≠ b := by
  intro hab
  rw [hab] at h
  rw [dateBefore, lexBefore_irrefl] at h
  exact Bool.false_ne_true h

/-- C5 counterexample.  The claim states the run is allowed *iff* the
target date is strictly before the current date or equal to it with the
hour in `[7, 24)`.  The code only tests string inequality, so a target
date strictly *after* the current date (a future date) is also allowed:
at target `2025-10-13`, current date `2025-10-12`, hour 12, the gate
returns true while the claimed right-hand side is false. -/
theorem withinHours_future_date_counterexample :
    ¬ (withinHours "2025-10-13" "2025-10-12" 12 = true
        ↔ (dateBefore "2025-10-13" "2025-10-12"
            ∨ ("2025-10-13" = "2025-10-12" ∧ 7 ≤ 12 ∧ 12 < 24))) := by
  decide

/-- C5 (amended).  The gate allows the run iff the target date *differs*
from the current calendar date (hence every historical date, and also
every future date), or the dates are equal and the hour lies in
`[7, 24)`.  The claimed boundary instances hold: for a target equal to
the current date it is denied at hour 6 (06:59 falls in hour 6), allowed
at hours 7 and 23, and denied at hour 0 (so the run for the new day is
denied at midnight); any strictly earlier target date (yesterday) is
always allowed. -/
theorem withinHours_amended_spec :
    (∀ (t n : String) (h : Nat),
      withinHours t n h = true ↔ (t ≠ n ∨ (7 ≤ h ∧ h < 24)))
    ∧ (∀ (t n : String) (h : Nat), dateBefore t n → withinHours t n h = true)
    ∧ (∀ d : String,
        withinHours d d 6 = false ∧ withinHours d d 7 = true
          ∧ withinHours d d 23 = true ∧ withinHours d d 0 = false) := by
  refine ⟨fun t n h => ?_, fun t n h hlt => ?_, fun d => ?_⟩
  · by_cases hne : t = n
    · subst hne
      constructor
      · intro hd
        unfold withinHours at hd
        rw [if_neg (by simp)] at hd
        exact Or.inr (of_decide_eq_true hd)
      · intro hd
        rcases hd with hd | hd
        · exact (hd rfl).elim
        · unfold withinHours
          rw [if_neg (by simp)]
          exact decide_eq_true hd
    · simp [withinHours, hne]
  · have hne : t ≠ n := dateBefore_ne hlt
    simp [withinHours, hne]
  · refine ⟨?_, ?_, ?_, ?_⟩ <;> simp [withinHours]

/-- C5 witness: the amended rule evaluated at concrete dates — a
yesterday target at hour 3 is allowed, and the general iff applied to a
same-date run at hour 12 holds. -/
theorem withinHours_amended_spec_witness :
    withinHours "2025-10-11" "2025-10-12" 3 = true
    ∧ (withinHours "2025-10-12" "2025-10-12" 12 = true
        ↔ (("2025-10-12" : String) ≠ "2025-10-12" ∨ (7 ≤ 12 ∧ 12 < 24))) :=
  ⟨withinHours_amended_spec.2.1 "2025-10-11" "2025-10-12" 3 (by decide : dateBefore "2025-10-11" "2025-10-12"),
   withinHours_amended_spec.1 "2025-10-12" "2025-10-12" 12⟩

/-- C8.  The embedding input text is the title, summary and content (in
that order, newline-separated, missing fields read as empty) truncated
to at most 2000 characters *after* concatenation: the result is always a
prefix of the full concatenation, never exceeds 2000 characters, and
equals the full concatenation whenever that already fits. -/
theorem compose_embed_text_spec :
    (∀ a : EmbArticle, compose_embed_text a <+: embedConcat a)
    ∧ (∀ a : EmbArticle, (compose_embed_text a).length ≤ 2000)
    ∧ (∀ a : EmbArticle,
        (embedConcat a).length ≤ 2000 → compose_embed_text a = embedConcat a) := by
  refine ⟨fun a => ?_, fun a => ?_, fun a h => ?_⟩
  · exact List.take_prefix 2000 (embedConcat a)
  · calc (compose_embed_text a).length
        = min 2000 (embedConcat a).length := List.length_take 2000 (embedConcat a)
      _ ≤ 2000 := min_le_left _ _
  · exact List.take_of_length_le h

/-- C8 witness: a concrete short article, for which truncation is the
identity and the composed text is exactly the newline-joined fields. -/
theorem compose_embed_text_spec_witness :
    compose_embed_text
        ⟨1, "http://a/1", some "标题".data, none, some "正文".data, "2025-10-12"⟩
      = embedConcat
        ⟨1, "http://a/1", some "标题".data, none, some "正文".data, "2025-10-12"⟩ :=
  compose_embed_text_spec.2.2
    ⟨1, "http://a/1", some "标题".data, none, some "正文".data, "2025-10-12"⟩
    (by decide)

/-- C3.  `embed_batch` is all-or-nothing: any returned vector list has
exactly one vector per input text, and it returns `None` whenever the
endpoint is unreachable, the configuration is incomplete, or the
response yields a vector count different from the input count; and when
it returns `None` the pipeline writes no vector rows for the batch. -/
theorem embed_batch_all_or_nothing :
    (∀ (cfg : EmbedConfig) (resp : EmbedHttp) (texts : List (List Char))
      (vs : List (List ℚ)),
        embed_batch cfg resp texts = some vs → vs.length = texts.length)
    ∧ (∀ (cfg : EmbedConfig) (texts : List (List Char)),
        embed_batch cfg .failure texts = none)
    ∧ (∀ (cfg : EmbedConfig) (resp : EmbedHttp) (texts : List (List Char)),
        embedConfigComplete cfg = false → embed_batch cfg resp texts = none)
    ∧ (∀ (cfg : EmbedConfig) (status : Nat) (entries : List (Option (List ℚ)))
      (texts : List (List Char)),
        (entries.filterMap id).length ≠ texts.length →
          embed_batch cfg (.response status entries) texts = none)
    ∧ (∀ articles : List EmbArticle, generate_embeddings articles none = []) := by
  refine ⟨?_, ?_, ?_, ?_, ?_⟩
  · intro cfg resp texts vs h
    cases resp with
    | failure =>
      by_cases hc : embedConfigComplete cfg = false <;> simp [embed_batch, hc] at h
    | response status entries =>
      by_cases hc : embedConfigComplete cfg = false
      · simp [embed_batch, hc] at h
      · by_cases hs : status = 200
        · subst hs
          by_cases hn : (entries.filterMap id).length = texts.length
          · simp [embed_batch, hc, hn] at h
            rw [← h]
            exact hn
          · simp [embed_batch, hc, hn] at h
        · simp [embed_batch, hc, hs] at h
  · intro cfg texts
    by_cases hc : embedConfigComplete cfg = false <;> simp [embed_batch, hc]
  · intro cfg resp texts hc
    simp [embed_batch, hc]
  · intro cfg status entries texts hn
    by_cases hc : embedConfigComplete cfg = false
    · simp [embed_batch, hc]
    · by_cases hs : status = 200
      · subst hs
        simp [embed_batch, hc, hn]
      · simp [embed_batch, hc, hs]
  · intro articles
    rfl

/-- C3 witness: with a complete configuration, a 200 response carrying
one vector for two input texts (the N-1 case) is rejected outright, and
an unreachable endpoint likewise yields `None`; by the length conjunct a
successful result for those two texts would have had two vectors. -/
theorem embed_batch_all_or_nothing_witness :
    embed_batch ⟨some "http://e", some "m", some "k"⟩
        (.response 200 [some [(1 : ℚ)]]) ["a".data, "b".data] = none
    ∧ embed_batch ⟨some "http://e", some "m", some "k"⟩ .failure
        ["a".data, "b".data] = none
    ∧ generate_embeddings
        [⟨1, "http://a/1", none, none, none, "2025-10-12"⟩] none = [] :=
  ⟨embed_batch_all_or_nothing.2.2.2.1 ⟨some "http://e", some "m", some "k"⟩
      200 [some [(1 : ℚ)]] ["a".data, "b".data] (by decide),
   embed_batch_all_or_nothing.2.1 ⟨some "http://e", some "m", some "k"⟩
      ["a".data, "b".data],
   embed_batch_all_or_nothing.2.2.2.2
      [⟨1, "http://a/1", none, none, none, "2025-10-12"⟩]⟩

theorem foldl_pair_append (r : List Nat) :
    ∀ (s0 : List (Option String)) (f0 : List Nat),
      r.foldl (fun acc i => (acc.1, acc.2 ++ [i])) (s0, f0) = (s0, f0 ++ r) := by
  induction r with
  | nil => intro s0 f0; simp
  | cons i r ih =>
    intro s0 f0
    simp only [List.foldl_cons, ih (s0) (f0 ++ [i])]
    simp

theorem onePass_alwaysNone (a : Nat) (cs : List String)
    (sums : List (Option String)) (rem : List Nat) :
    onePass (fun _ _ => none) a cs sums rem = (sums, rem) := by
  show rem.foldl (fun acc i => (acc.1, acc.2 ++ [i])) (sums, []) = (sums, rem)
  simpa using foldl_pair_append rem sums []

theorem foldl_pair_set (v : Option String) (r : List Nat) :
    ∀ (s0 : List (Option String)) (f0 : List Nat),
      r.foldl (fun acc i => (acc.1.set i v, acc.2)) (s0, f0)
        = (r.foldl (fun ss i => ss.set i v) s0, f0) := by
  induction r with
  | nil => intro s0 f0; simp
  | cons i r ih =>
    intro s0 f0
    simp only [List.foldl_cons]
    exact ih (s0.set i v) f0

theorem onePass_unconfigured (a : Nat) (cs : List String)
    (sums : List (Option String)) (rem : List Nat) :
    onePass (fun _ _ => some unconfiguredSummary) a cs sums rem
      = (rem.foldl (fun ss i => ss.set i (some unconfiguredSummary)) sums, []) := by
  have hfun : (fun (acc : List (Option String) × List Nat) (i : Nat) =>
      match (fun (_ : Nat) (_ : String) => some unconfiguredSummary) a (cs.getD i "") with
      | some t => if t = "" then (acc.1, acc.2 ++ [i]) else (acc.1.set i (some t), acc.2)
      | none => (acc.1, acc.2 ++ [i]))
      = fun acc i => (acc.1.set i (some unconfiguredSummary), acc.2) := by
    funext acc i
    simp [unconfiguredSummary]
  show rem.foldl _ (sums, []) = _
  rw [hfun]
  exact foldl_pair_set (some unconfiguredSummary) rem sums []

theorem foldl_set_shift (v : Option String) (r : List Nat) :
    ∀ (a : Option String) (l : List (Option String)),
      (r.map Nat.succ).foldl (fun ss i => ss.set i v) (a :: l)
        = a :: r.foldl (fun ss i => ss.set i v) l := by
  induction r with
  | nil => intro a l; simp
  | cons i r ih =>
    intro a l
    simp only [List.map_cons, List.foldl_cons, List.set_cons_succ]
    exact ih a (l.set i v)

theorem foldl_set_range (v : Option String) :
    ∀ l : List (Option String),
      (List.range l.length).foldl (fun ss i => ss.set i v) l
        = l.map (fun _ => v) := by
  intro l
  induction l with
  | nil => simp
  | cons a l ih =>
    simp only [List.length_cons, List.range_succ_eq_map, List.foldl_cons,
      List.set_cons_zero, List.map_cons]
    rw [foldl_set_shift v (List.range l.length) v l, ih]

theorem applySentinel_shift (r : List Nat) :
    ∀ (a : Option String) (l : List (Option String)),
      (r.map Nat.succ).foldl
          (fun acc i =>
            if truthy (acc.getD i none) = true then acc
            else acc.set i (some failedSummarySentinel)) (a :: l)
        = a :: r.foldl
            (fun acc i =>
              if truthy (acc.getD i none) = true then acc
              else acc.set i (some failedSummarySentinel)) l := by
  induction r with
  | nil => intro a l; simp
  | cons i r ih =>
    intro a l
    simp only [List.map_cons, List.foldl_cons, List.getD_cons_succ, List.set_cons_succ]
    by_cases hc : truthy (l.getD i none) = true
    · rw [if_pos hc, if_pos hc]
      exact ih a l
    · rw [if_neg hc, if_neg hc]
      exact ih a (l.set i (some failedSummarySentinel))

theorem applySentinel_allNone :
    ∀ l : List (Option String), (∀ o ∈ l, o = none) →
      applySentinel l (List.range l.length)
        = l.map (fun _ => some failedSummarySentinel) := by
  intro l
  induction l with
  | nil => intro _; rfl
  | cons a l ih =>
    intro h
    have ha : a = none := h a (List.mem_cons_self a l)
    subst ha
    unfold applySentinel
    simp only [List.length_cons, List.range_succ_eq_map, List.foldl_cons,
      List.getD_cons_zero, List.map_cons]
    rw [if_neg (by simp [truthy]), List.set_cons_zero]
    rw [applySentinel_shift (List.range l.length) (some failedSummarySentinel) l]
    have := ih (fun o ho => h o (List.mem_cons_of_mem none ho))
    unfold applySentinel at this
    rw [this]

theorem applySentinel_allTruthy :
    ∀ (rem : List Nat) (l : List (Option String)),
      (∀ o ∈ l, truthy o = true) → applySentinel l rem = l := by
  intro rem
  induction rem with
  | nil => intro l _; rfl
  | cons i rem ih =>
    intro l h
    unfold applySentinel
    simp only [List.foldl_cons]
    by_cases hi : i < l.length
    · rw [if_pos ?_]
      · exact ih l h
      · rw [List.getD_eq_getElem l none hi]
        exact h _ (l.getElem_mem hi)
    · push_neg at hi
      rw [if_neg ?_, List.set_eq_of_length_le hi]
      · exact ih l h
      · rw [List.getD_eq_default l none (by omega)]
        simp [truthy]

theorem fillLoop_alwaysNone :
    ∀ (k a : Nat), a + k = 3 →
      ∀ (cs : List String) (sums : List (Option String)) (rem : List Nat),
        rem ≠ [] →
          fillLoop (fun _ _ => none) cs sums rem a = (sums, rem, 4 - a) := by
  intro k
  induction k with
  | zero =>
    intro a ha cs sums rem hrem
    have ha3 : a = 3 := by omega
    subst ha3
    unfold fillLoop
    rw [dif_neg (by simp [hrem])]
    simp only [onePass_alwaysNone]
    rw [if_neg hrem, if_pos (by omega)]
  | succ k ih =>
    intro a ha cs sums rem hrem
    have ha2 : a ≤ 2 := by omega
    unfold fillLoop
    rw [dif_neg (by simp [hrem]; omega)]
    simp only [onePass_alwaysNone]
    rw [if_neg hrem, if_neg (by omega)]
    rw [ih (a + 1) (by omega) cs sums rem hrem]
    simp only []
    congr 1
    congr 1
    omega

theorem fillLoop_unconfigured (cs : List String) (sums : List (Option String))
    (rem : List Nat) (hrem : rem ≠ []) :
    fillLoop (fun _ _ => some unconfiguredSummary) cs sums rem 0
      = (rem.foldl (fun ss i => ss.set i (some unconfiguredSummary)) sums, rem, 1) := by
  unfold fillLoop
  rw [dif_neg (by simp [hrem])]
  simp only [onePass_unconfigured]
  simp

/-- C4.  For a summarizer that always fails, `_fill_summaries` over a
batch of items (not yet carrying summaries) terminates, its retry loop
executing at most 4 full passes over the failing subset — exactly 4 (the
initial attempt plus the `max_retries = 3` retries) once the batch is
nonempty — and on termination every item of the batch carries the
sentinel failure marker `"[AI摘要失败]"` as its summary, so no item is
left without a summary. -/
theorem fill_summaries_always_fail :
    ∀ items : List DetailedItem, (∀ it ∈ items, it.summary = none) →
      (fill_summaries (fun _ _ => none) items).1
          = items.map (fun it => { it with summary := some failedSummarySentinel })
      ∧ (fill_summaries (fun _ _ => none) items).2 ≤ 4
      ∧ (items ≠ [] → (fill_summaries (fun _ _ => none) items).2 = 4) := by
  intro items hnone
  cases items with
  | nil => exact ⟨rfl, by simp [fill_summaries, fillLoop], fun h => absurd rfl h⟩
  | cons it0 rest =>
    set items := it0 :: rest with hitems
    have hrem : List.range items.length ≠ [] := by
      simp [hitems]
    have hloop := fillLoop_alwaysNone 3 0 rfl (items.map (fun it => it.content))
      (items.map (fun it => it.summary)) (List.range items.length) hrem
    have hinitnone : ∀ o ∈ items.map (fun it => it.summary), o = none := by
      intro o ho
      rcases List.mem_map.mp ho with ⟨it, hit, rfl⟩
      exact hnone it hit
    have hlen : (items.map (fun it => it.summary)).length = items.length :=
      List.length_map _ _
    have hsent : applySentinel (items.map (fun it => it.summary))
        (List.range items.length)
        = (items.map (fun it => it.summary)).map
            (fun _ => some failedSummarySentinel) := by
      rw [← hlen]
      exact applySentinel_allNone (items.map (fun it => it.summary)) hinitnone
    have hfs : fill_summaries (fun _ _ => none) items
        = (List.zipWith (fun it o => { it with summary := o }) items
            (applySentinel
              (fillLoop (fun _ _ => none) (items.map (fun it => it.content))
                (items.map (fun it => it.summary)) (List.range items.length) 0).1
              (fillLoop (fun _ _ => none) (items.map (fun it => it.content))
                (items.map (fun it => it.summary)) (List.range items.length) 0).2.1),
           (fillLoop (fun _ _ => none) (items.map (fun it => it.content))
             (items.map (fun it => it.summary)) (List.range items.length) 0).2.2) :=
      rfl
    refine ⟨?_, ?_, fun _ => ?_⟩
    · rw [hfs]
      simp only [hloop]
      simp only [hsent, List.map_map]
      rw [List.zipWith_map_right]
      rw [List.zipWith_same]
      simp [Function.comp]
    · rw [hfs]
      simp only [hloop]
      simp
    · rw [hfs]
      simp only [hloop]

/-- C4 witness: a concrete two-item batch under the always-failing
summarizer; the stage runs exactly 4 passes and both items end with the
sentinel summary. -/
theorem fill_summaries_always_fail_witness :
    (fill_summaries (fun _ _ => none)
        [⟨"t1", "u1", "http://a/1", "2025-10-12", "c1", [], none⟩,
         ⟨"t2", "u2", "http://a/2", "2025-10-12", "c2", [], none⟩]).1
      = [⟨"t1", "u1", "http://a/1", "2025-10-12", "c1", [],
            some failedSummarySentinel⟩,
         ⟨"t2", "u2", "http://a/2", "2025-10-12", "c2", [],
            some failedSummarySentinel⟩]
    ∧ (fill_summaries (fun _ _ => none)
        [⟨"t1", "u1", "http://a/1", "2025-10-12", "c1", [], none⟩,
         ⟨"t2", "u2", "http://a/2", "2025-10-12", "c2", [], none⟩]).2 = 4 := by
  have h := fill_summaries_always_fail
    [⟨"t1", "u1", "http://a/1", "2025-10-12", "c1", [], none⟩,
     ⟨"t2", "u2", "http://a/2", "2025-10-12", "c2", [], none⟩]
    (by decide)
  exact ⟨h.1, h.2.2 (by decide)⟩

/-- C10.  When no AI API key is configured the request headers carry no
`Authorization` entry, so `summarize` returns the placeholder
`"[AI 未配置]"` rather than `None`; the (truthy) placeholder counts as a
success, so the summary-filling stage completes in a single pass with no
retries, and every item of the batch — and every article record built
from it for persistence — carries the placeholder, which is distinct
from the failure sentinel `"[AI摘要失败]"`. -/
theorem summarize_unconfigured_placeholder :
    ∀ (cfg : AIConfig) (api : Nat → String → Option String)
      (items : List DetailedItem),
      hasAuthHeader cfg = false →
        (∀ (a : Nat) (c : String),
            pipeSummarizer cfg api a c = some unconfiguredSummary)
        ∧ (fill_summaries (pipeSummarizer cfg api) items).1
            = items.map (fun it => { it with summary := some unconfiguredSummary })
        ∧ (fill_summaries (pipeSummarizer cfg api) items).2 ≤ 1
        ∧ (items ≠ [] → (fill_summaries (pipeSummarizer cfg api) items).2 = 1)
        ∧ unconfiguredSummary ≠ failedSummarySentinel
        ∧ (∀ r ∈ (fill_summaries (pipeSummarizer cfg api) items).1.map toRecord,
            r.summary = unconfiguredSummary) := by
  intro cfg api items hauth
  have hs : pipeSummarizer cfg api = fun _ _ => some unconfiguredSummary := by
    funext a c
    simp [pipeSummarizer, summarize, hauth]
  have hone : ∀ (a : Nat) (c : String),
      pipeSummarizer cfg api a c = some unconfiguredSummary := by
    intro a c
    rw [hs]
  have hfseq : fill_summaries (pipeSummarizer cfg api) items
      = fill_summaries (fun _ _ => some unconfiguredSummary) items := by
    rw [hs]
  cases items with
  | nil =>
    refine ⟨hone, by rw [hfseq]; rfl, by rw [hfseq]; simp [fill_summaries, fillLoop],
      fun h => absurd rfl h, by decide, ?_⟩
    intro r hr
    rw [hfseq] at hr
    simp [fill_summaries, fillLoop] at hr
  | cons it0 rest =>
    set items := it0 :: rest with hitems
    have hrem : List.range items.length ≠ [] := by simp [hitems]
    have hloop := fillLoop_unconfigured (items.map (fun it => it.content))
      (items.map (fun it => it.summary)) (List.range items.length) hrem
    have hlen : (items.map (fun it => it.summary)).length = items.length :=
      List.length_map _ _
    have hset : (List.range items.length).foldl
        (fun ss i => ss.set i (some unconfiguredSummary))
        (items.map (fun it => it.summary))
        = (items.map (fun it => it.summary)).map
            (fun _ => some unconfiguredSummary) := by
      rw [← hlen]
      exact foldl_set_range (some unconfiguredSummary) _
    have htruthy : ∀ o ∈ (items.map (fun it => it.summary)).map
        (fun _ => some unconfiguredSummary), truthy o = true := by
      intro o ho
      rcases List.mem_map.mp ho with ⟨_, _, rfl⟩
      decide
    have hfs : fill_summaries (fun _ _ => some unconfiguredSummary) items
        = (List.zipWith (fun it o => { it with summary := o }) items
            (applySentinel
              (fillLoop (fun _ _ => some unconfiguredSummary)
                (items.map (fun it => it.content))
                (items.map (fun it => it.summary)) (List.range items.length) 0).1
              (fillLoop (fun _ _ => some unconfiguredSummary)
                (items.map (fun it => it.content))
                (items.map (fun it => it.summary)) (List.range items.length) 0).2.1),
           (fillLoop (fun _ _ => some unconfiguredSummary)
             (items.map (fun it => it.content))
             (items.map (fun it => it.summary)) (List.range items.length) 0).2.2) :=
      rfl
    have hfinal : (fill_summaries (fun _ _ => some unconfiguredSummary) items).1
        = items.map (fun it => { it with summary := some unconfiguredSummary }) := by
      rw [hfs]
      simp only [hloop]
      simp only [hset]
      rw [applySentinel_allTruthy (List.range items.length) _ htruthy]
      simp only [List.map_map]
      rw [List.zipWith_map_right]
      rw [List.zipWith_same]
      simp [Function.comp]
    refine ⟨hone, by rw [hfseq, hfinal], ?_, fun _ => ?_, by decide, ?_⟩
    · rw [hfseq, hfs]
      simp only [hloop]
      simp
    · rw [hfseq, hfs]
      simp only [hloop]
    · intro r hr
      rw [hfseq, hfinal] at hr
      rcases List.mem_map.mp hr with ⟨it, hit, rfl⟩
      rcases List.mem_map.mp hit with ⟨it1, _, rfl⟩
      rfl

/-- C10 witness: a concrete key-less configuration and a one-item batch;
a single pass assigns the placeholder summary to the item and to the
record built from it. -/
theorem summarize_unconfigured_placeholder_witness :
    pipeSummarizer ⟨none⟩ (fun _ _ => none) 0 "c" = some unconfiguredSummary
    ∧ (fill_summaries (pipeSummarizer ⟨none⟩ (fun _ _ => none))
        [⟨"t", "u", "http://a/1", "2025-10-12", "c", [], none⟩]).1
        = [⟨"t", "u", "http://a/1", "2025-10-12", "c", [],
            some unconfiguredSummary⟩]
    ∧ (fill_summaries (pipeSummarizer ⟨none⟩ (fun _ _ => none))
        [⟨"t", "u", "http://a/1", "2025-10-12", "c", [], none⟩]).2 = 1 := by
  have h := summarize_unconfigured_placeholder ⟨none⟩ (fun _ _ => none)
    [⟨"t", "u", "http://a/1", "2025-10-12", "c", [], none⟩] (by decide)
  exact ⟨h.1 0 "c", h.2.1, h.2.2.2.1 (by decide)⟩

theorem new_items_empty_existing (candidates : List ArticleMeta) :
    new_items candidates [] = candidates := by
  unfold new_items
  rw [List.filter_eq_self]
  intro a _
  simp

theorem filterMap_content (g : String → DetailResult)
    (l : List ArticleMeta) :
    (l.filterMap (fun m =>
        if (g m.link).content = "" then none
        else some (mkDetailedItem m (g m.link)))).map
      (fun it => it.content)
      = (l.map (fun m => (g m.link).content)).filter
          (fun c => decide (c ≠ "")) := by
  induction l with
  | nil => rfl
  | cons m l ih =>
    by_cases hc : (g m.link).content = ""
    · simp [List.filterMap_cons, hc, ih]
    · have hkeep : decide (((g m.link).content : String) ≠ "") = true := by
        simpa using hc
      have hcontent : (mkDetailedItem m (g m.link)).content = (g m.link).content :=
        rfl
      simp only [List.filterMap_cons, hc, if_false, List.map_cons, hcontent,
        List.filter_cons, hkeep, if_true, ih]

/-- C7.  When acquiring the store connection raises, the run does not
abort: it proceeds with an empty existing-link set — so no
deduplication, every listed candidate is detail-fetched — and
summarization still runs over every candidate whose detail produced
content; but no article is inserted, no vector row is written, and no
cache region is refreshed. -/
theorem run_degraded_mode :
    ∀ env : RunEnv, env.db = none →
      withinHours env.targetDate env.nowDate env.nowHour = true →
        (run env).listFetched = true
        ∧ (run env).detailFetched = env.listing.map (fun m => m.link)
        ∧ (run env).summarizedContents
            = (env.listing.map (fun m => (env.detailOf m.link).content)).filter
                (fun c => decide (c ≠ ""))
        ∧ (run env).dbFinal = none
        ∧ (run env).insertedCount = none
        ∧ (run env).cacheRefreshed = false
        ∧ (run env).vectorPayloads = [] := by
  intro env hdb hgate
  unfold run
  rw [hdb]
  simp only [hgate, new_items_empty_existing]
  by_cases hcand : env.listing = []
  · simp [hcand]
  · rw [if_neg (by simp), if_neg hcand, if_neg hcand]
    by_cases hdet : env.listing.filterMap (fun m =>
        if (env.detailOf m.link).content = "" then none
        else some (mkDetailedItem m (env.detailOf m.link))) = []
    · rw [if_pos hdet]
      refine ⟨rfl, rfl, ?_, rfl, rfl, rfl, rfl⟩
      rw [← filterMap_content env.detailOf env.listing, hdet]
      rfl
    · rw [if_neg hdet]
      exact ⟨rfl, rfl, filterMap_content env.detailOf env.listing, rfl, rfl, rfl, rfl⟩

/-- C7 witness: a store-less environment with one candidate whose detail
has content; the run fetches and summarizes it but writes nothing. -/
theorem run_degraded_mode_witness :
    (run ⟨"2025-10-12", "2025-10-12", 12, none,
        [⟨"t", "u", "http://a/1", "2025-10-12"⟩],
        (fun _ => ⟨"正文", []⟩), ⟨some "key"⟩, (fun _ _ => some "摘要"),
        ⟨none, none, none⟩, .failure⟩).detailFetched = ["http://a/1"]
    ∧ (run ⟨"2025-10-12", "2025-10-12", 12, none,
        [⟨"t", "u", "http://a/1", "2025-10-12"⟩],
        (fun _ => ⟨"正文", []⟩), ⟨some "key"⟩, (fun _ _ => some "摘要"),
        ⟨none, none, none⟩, .failure⟩).summarizedContents = ["正文"]
    ∧ (run ⟨"2025-10-12", "2025-10-12", 12, none,
        [⟨"t", "u", "http://a/1", "2025-10-12"⟩],
        (fun _ => ⟨"正文", []⟩), ⟨some "key"⟩, (fun _ _ => some "摘要"),
        ⟨none, none, none⟩, .failure⟩).insertedCount = none := by
  have h := run_degraded_mode ⟨"2025-10-12", "2025-10-12", 12, none,
    [⟨"t", "u", "http://a/1", "2025-10-12"⟩],
    (fun _ => ⟨"正文", []⟩), ⟨some "key"⟩, (fun _ _ => some "摘要"),
    ⟨none, none, none⟩, .failure⟩ rfl (by decide)
  exact ⟨h.2.1, by rw [h.2.2.1]; rfl, h.2.2.2.2.1⟩

end Crawler

namespace Backend

/-- C9 counterexample.  The claim says cache entries are tagged with a
content hash so the read path can answer a not-modified request without
re-serializing and re-hashing the identical payload on every read.  In
the code the refresher stores the bare payload — for this concrete row
the entry is exactly the stripped article list with `next_before_id`
and `has_more`, carrying no digest — and a concrete conditional read
whose `If-None-Match` matches is answered 304 only after one full
serialize-and-hash of the cached payload (`hashOps = 1`, not `0` as the
claim implies). -/
theorem cache_no_hash_tag_counterexample :
    (refresh_today_cache
        [⟨7, "t", "u", "http://a/1", "2025-10-12", "s", "c", "[]",
          "2025-10-12T08:00:00", "2025-10-12T08:00:00"⟩]).2
      = ⟨[⟨7, "t", "u", "http://a/1", "2025-10-12", "s", "[]",
            "2025-10-12T08:00:00", "2025-10-12T08:00:00"⟩], some 7, false⟩
    ∧ (get_articles_cached
        ⟨[⟨7, "t", "u", "http://a/1", "2025-10-12", "s", "[]",
            "2025-10-12T08:00:00", "2025-10-12T08:00:00"⟩]⟩
        (some (generate_etag
          ⟨[⟨7, "t", "u", "http://a/1", "2025-10-12", "s", "[]",
              "2025-10-12T08:00:00", "2025-10-12T08:00:00"⟩]⟩))
        false).status = 304
    ∧ (get_articles_cached
        ⟨[⟨7, "t", "u", "http://a/1", "2025-10-12", "s", "[]",
            "2025-10-12T08:00:00", "2025-10-12T08:00:00"⟩]⟩
        (some (generate_etag
          ⟨[⟨7, "t", "u", "http://a/1", "2025-10-12", "s", "[]",
              "2025-10-12T08:00:00", "2025-10-12T08:00:00"⟩]⟩))
        false).hashOps ≠ 0 := by
  refine ⟨rfl, ?_, ?_⟩ <;> simp [get_articles_cached]

/-- C9 (amended).  Cache entries consist of the serialized payload only
— the refresher stores the content-stripped article list with
`next_before_id` and `has_more` and no content-hash tag — and the read
path recomputes the MD5 ETag of the cached payload on every cached
read, including when answering 304: every read performs exactly one
serialize-and-hash, and 304 is returned exactly when `If-None-Match`
equals the recomputed digest or the `If-Modified-Since` check deems the
list unchanged. -/
theorem cache_read_rehash_spec :
    (∀ arts : List CachedArticleRow,
      refresh_today_cache arts
        = ("articles:today",
           ⟨arts.map stripContent, (arts.getLast?).map (fun r => r.id), false⟩))
    ∧ (∀ (p : ListPayload) (inm : Option String) (ims : Bool),
        (get_articles_cached p inm ims).hashOps = 1)
    ∧ (∀ (p : ListPayload) (inm : Option String) (ims : Bool),
        ((get_articles_cached p inm ims).status = 304
          ↔ (inm = some (generate_etag p) ∨ ims = true))) := by
  refine ⟨fun arts => rfl, fun p inm ims => ?_, fun p inm ims => ?_⟩
  · unfold get_articles_cached
    by_cases h1 : inm = some (generate_etag p)
    · rw [if_pos h1]
    · rw [if_neg h1]
      cases ims <;> simp
  · unfold get_articles_cached
    by_cases h1 : inm = some (generate_etag p)
    · simp [h1]
    · cases ims <;> simp [h1]

/-- C6.  The code of `search_similar_articles` embodies the claimed
ranking (candidate over-fetch of `clamp(topK*5, topK, 50)` by ascending
distance, recency-decayed score, ascending re-sort, first `topK`; see
`searchSQL` and the theorems about it below), but on the shipped
configuration the function never executes it: `backend/config.py`
defines neither `ai_recency_weight` nor `ai_recency_half_life_days`, so
line 136 raises `AttributeError`, the handler logs it, and *every* call
returns the empty list instead of the ranked results. -/
theorem search_similar_articles_always_empty :
    ∀ (cfg : BackendConfig) (rows : List VectorJoinRow) (top_k : Nat),
      search_similar_articles cfg rows top_k = [] := by
  intro cfg rows top_k
  rfl

theorem searchSQL_length_le (rows : List VectorJoinRow) (top_k : Nat)
    (w h : ℝ) : (searchSQL rows top_k w h).length ≤ top_k := by
  unfold searchSQL
  simp

/-- With `recencyWeight = 0` the score is the raw distance, so the
output order is plain ascending-distance order: the first `topK` of the
distance-sorted candidates, unchanged by the re-sort. -/
theorem searchSQL_noRecency (rows : List VectorJoinRow) (top_k : Nat)
    (h : ℝ) :
    searchSQL rows top_k 0 h
      = (((List.insertionSort leDist rows).take (candidateLimit top_k)).map
          (fun r => (r, r.similarity))).take top_k := by
  unfold searchSQL
  have hscore : (fun r => (r, score 0 h r)) = fun r => (r, r.similarity) := by
    funext r
    simp [score]
  rw [hscore]
  have hsorted : List.Sorted leDist
      ((List.insertionSort leDist rows).take (candidateLimit top_k)) :=
    (List.sorted_insertionSort leDist rows).sublist
      (List.take_sublist (candidateLimit top_k) _)
  have hsorted2 : List.Sorted leScore
      (((List.insertionSort leDist rows).take (candidateLimit top_k)).map
        (fun r => (r, r.similarity))) :=
    List.Pairwise.map _ (fun a b hab => hab) hsorted
  show List.take top_k
      (List.insertionSort leScore
        (((List.insertionSort leDist rows).take (candidateLimit top_k)).map
          (fun r => (r, r.similarity)))) = _
  rw [hsorted2.insertionSort_eq]

/-- With `recencyWeight > 0`, of two candidates at identical raw
distance the one with the smaller (clamped) age gets the strictly lower
— better — score. -/
theorem score_age_strict_mono (w h : ℝ) (hw : 0 < w) (hh : 0 < h)
    (r1 r2 : VectorJoinRow) (hsim : r1.similarity = r2.similarity)
    (hage : max r1.ageDays 0 < max r2.ageDays 0) :
    score w h r1 < score w h r2 := by
  unfold score
  rw [hsim]
  have hcast : ((max r1.ageDays 0 : Int) : ℝ) < ((max r2.ageDays 0 : Int) : ℝ) := by
    exact_mod_cast hage
  have hdiv : -((max r2.ageDays 0 : Int) : ℝ) / h < -((max r1.ageDays 0 : Int) : ℝ) / h :=
    (div_lt_div_iff_of_pos_right hh).mpr (by linarith)
  have hexp := Real.exp_lt_exp.mpr hdiv
  have hmul := mul_lt_mul_of_pos_left hexp hw
  linarith

end Backend
